import Mathlib

/-!
Shallow embedding of the streaming translation pipeline of ProjectYLT
(src/modules: audio_capture.py, stt_module.py, llm_module.py,
context_manager.py, pipeline.py).

Python `queue.Queue` instances are modelled as Lean lists whose head is the
oldest element; Python strings are `List Char` (so that the substring test
`a in b` is list-infix); audio sample arrays are `List ℚ`.  The external
recognizer and generator capabilities are parameters of the functions that
invoke them.  Where a claim counts invocations of an internal routine, the
model carries an explicit invocation counter incremented exactly at the
program points where the source performs the call.
-/

namespace YLT

/-! ### Bounded queue primitives (Python `queue.Queue`, head = oldest) -/

/-- `STTProcessor.put_audio` (src/modules/stt_module.py lines 268-283):
`self.audio_queue.put_nowait(audio_data)`; on `queue.Full` it logs and
returns `False`.  The queue is a list with capacity `cap` (`maxsize=5` in the
source); the returned `Bool` is the function's return value. -/
def STTProcessor.put_audio {α : Type} (cap : Nat) (q : List α) (x : α) :
    Bool × List α :=
  if q.length < cap then (true, q ++ [x]) else (false, q)

/-- `LLMProcessor.put_text` (src/modules/llm_module.py lines 287-302):
`self.text_queue.put_nowait(text)`; on `queue.Full` it logs and returns
`False` (capacity 5 in the source). -/
def LLMProcessor.put_text {α : Type} (cap : Nat) (q : List α) (x : α) :
    Bool × List α :=
  if q.length < cap then (true, q ++ [x]) else (false, q)

/-- The drop-oldest put pattern used for the result queues and the capture
queue (src/modules/stt_module.py lines 319-327, llm_module.py lines 347-355,
audio_capture.py lines 279-287): `put_nowait(item)`, and on `queue.Full`,
`get_nowait()` (remove the oldest) followed by `put_nowait(item)` again.
Modelled for capacity `cap ≥ 1`, which is the only way it is used. -/
def putDropOldest {α : Type} (cap : Nat) (q : List α) (x : α) : List α :=
  if q.length < cap then q ++ [x] else q.tail ++ [x]

/-- One operation on an inter-stage channel: the drop-oldest send
(capture loop / result queues), the drop-new send (`put_audio`/`put_text`),
or a receive (`get(timeout=...)`, which removes the oldest element when one
is present and otherwise returns empty leaving the queue unchanged). -/
inductive ChanOp (α : Type) where
  | sendOldest (x : α)
  | sendNew (x : α)
  | recv
deriving DecidableEq

/-- Effect of one channel operation on the queue contents. -/
def ChanOp.apply {α : Type} (cap : Nat) (q : List α) : ChanOp α → List α
  | .sendOldest x => putDropOldest cap q x
  | .sendNew x => if q.length < cap then q ++ [x] else q
  | .recv => q.tail

/-- Run a sequence of channel operations from an initial queue state. -/
def runOps {α : Type} (cap : Nat) (q : List α) (ops : List (ChanOp α)) :
    List α :=
  ops.foldl (fun s op => ChanOp.apply cap s op) q

/-! ### TranscriptionStage (src/modules/stt_module.py) -/

/-- One recognizer output placed on the STT result queue
(src/modules/stt_module.py lines 312-317): full text plus the flattened word
list. -/
structure SttResult where
  text : List Char
  words : List (List Char)
deriving DecidableEq

/-- Sum of squares of the samples, the numerator of the mean in
`np.mean(audio_data ** 2)`. -/
def sumSq (xs : List ℚ) : ℚ := (xs.map (fun x => x * x)).sum

/-- The energy gate test of `STTModule.process_audio_chunk`
(src/modules/stt_module.py lines 204-207):
`np.sqrt(np.mean(audio_data ** 2)) < 0.01`.  Both sides are non-negative, so
squaring gives the equivalent rational test `sumSq xs / len < 1/10000`, i.e.
`sumSq xs * 10000 < len`; for an empty array NumPy yields NaN and the
comparison is false, matching `0 < 0` here. -/
def energyBelowGate (xs : List ℚ) : Bool :=
  decide (sumSq xs * 10000 < (xs.length : ℚ))

/-- One iteration of `STTProcessor._process_loop` on a dequeued chunk
(src/modules/stt_module.py lines 300-334): it invokes
`self.stt.transcribe_stream(audio_data)` unconditionally (no energy gate),
and when the returned text is non-empty pushes the result onto the capacity-10
result queue with the drop-oldest pattern.  `ts` is the recognizer capability
(`transcribe_stream`); the first component counts its invocations during this
iteration. -/
def STTProcessor.processChunk (ts : List ℚ → List Char × List (List Char))
    (chunk : List ℚ) (result_queue : List SttResult) :
    Nat × List SttResult :=
  let r := ts chunk
  if r.1 ≠ [] then (1, putDropOldest 10 result_queue ⟨r.1, r.2⟩)
  else (1, result_queue)

/-- Callback events fired by `STTModule.process_audio_chunk`: per-word
`on_partial_result` calls and the `on_final_result` call. -/
inductive SttEvent where
  | shownWord (w : List Char)
  | finalText (t : List Char)
deriving DecidableEq

/-- `STTModule.process_audio_chunk` (src/modules/stt_module.py lines
196-226), with both callbacks attached: if the RMS energy is below the 0.01
threshold it returns before any recognition; otherwise it invokes
`transcribe_stream`, returns on empty text, and else fires `on_partial_result`
for every non-empty word then `on_final_result` with the full text.  The
first component counts recognizer invocations, the second lists the callback
events in order. -/
def STTModule.process_audio_chunk
    (ts : List ℚ → List Char × List (List Char)) (audio : List ℚ) :
    Nat × List SttEvent :=
  if energyBelowGate audio then (0, [])
  else
    let r := ts audio
    if r.1 = [] then (1, [])
    else (1, (r.2.filter (fun w => !w.isEmpty)).map SttEvent.shownWord
              ++ [SttEvent.finalText r.1])

/-! ### ContextManager (src/modules/context_manager.py) -/

/-- The whitespace set removed by Python `str.strip()` (ASCII part, which is
what the repository's text handling exercises). -/
def pyIsSpace (c : Char) : Bool :=
  c = ' ' || c = '\t' || c = '\n' || c = '\r' || c = '\x0b' || c = '\x0c'

/-- Python `s.strip()`: remove leading and trailing whitespace. -/
def pyStrip (s : List Char) : List Char :=
  ((s.dropWhile pyIsSpace).reverse.dropWhile pyIsSpace).reverse

/-- Python `collections.deque(maxlen=m).append x`: append on the right,
evicting from the left whatever exceeds `m`. -/
def dequeAppend {α : Type} (maxlen : Nat) (q : List α) (x : α) : List α :=
  (q ++ [x]).drop (q.length + 1 - maxlen)

/-- State of a `ContextManager` (src/modules/context_manager.py lines 14-40):
the constructor parameters, the rolling `history` deque of
(original, translation) pairs, the summary string, and the sentence counter.
`update_summary_calls` counts invocations of `_update_summary` and
`gen_calls` counts invocations of `self.llm.generate_summary`, incremented
exactly at the corresponding call sites. -/
structure CMState where
  window_size : Nat
  update_interval : Nat
  max_context_length : Nat
  history : List (List Char × List Char)
  context_summary : List Char
  sentence_count : Nat
  update_summary_calls : Nat
  gen_calls : Nat
deriving DecidableEq

/-- A freshly constructed `ContextManager`. -/
def ContextManager.initState (w k l : Nat) : CMState :=
  ⟨w, k, l, [], [], 0, 0, 0⟩

/-- `ContextManager._update_summary` (src/modules/context_manager.py lines
116-144), with the LLM capability as the parameter `gen` (`none` when
`set_llm` was never called, as in `PipelineBuilder.build_from_config`):
return immediately when no LLM is attached or the history holds fewer than
two entries; otherwise invoke `generate_summary` on a prompt built from the
history and, when the result is non-empty, store its first
`max_context_length` characters. -/
def ContextManager.update_summary
    (gen : Option (List (List Char × List Char) → List Char))
    (st : CMState) : CMState :=
  let st := { st with update_summary_calls := st.update_summary_calls + 1 }
  match gen with
  | none => st
  | some g =>
    if st.history.length < 2 then st
    else
      let st := { st with gen_calls := st.gen_calls + 1 }
      let summary := g st.history
      if summary ≠ [] then
        { st with context_summary := summary.take st.max_context_length }
      else st

/-- `ContextManager.add_sentence` (src/modules/context_manager.py lines
51-72): return unchanged when the stripped original is empty; otherwise
append the stripped pair to the rolling deque, increment `sentence_count`,
and invoke `_update_summary` exactly when
`sentence_count % update_interval == 0`. -/
def ContextManager.add_sentence
    (gen : Option (List (List Char × List Char) → List Char))
    (st : CMState) (original translation : List Char) : CMState :=
  if pyStrip original = [] then st
  else
    let st := { st with
      history := dequeAppend st.window_size st.history
        (pyStrip original, pyStrip translation),
      sentence_count := st.sentence_count + 1 }
    if st.sentence_count % st.update_interval = 0 then
      ContextManager.update_summary gen st
    else st

/-- Fold `add_sentence` over a list of (original, translation) pairs. -/
def ContextManager.addAll
    (gen : Option (List (List Char × List Char) → List Char))
    (st : CMState) (xs : List (List Char × List Char)) : CMState :=
  xs.foldl (fun s p => ContextManager.add_sentence gen s p.1 p.2) st

/-! ### PipelineOrchestrator (src/modules/pipeline.py) -/

/-- Running flags of the pipeline and its three owned workers:
`STTProcessor.is_running`, `LLMProcessor.is_running`,
`AudioCapture.is_running`, and `TranslationPipeline.is_running`. -/
structure PipelineState where
  stt_running : Bool
  llm_running : Bool
  audio_running : Bool
  is_running : Bool
deriving DecidableEq

/-- `STTProcessor.start` (src/modules/stt_module.py lines 245-254): no-op if
already running, else set the flag and spawn the worker. -/
def sttProcessorStart (st : PipelineState) : PipelineState :=
  if st.stt_running then st else { st with stt_running := true }

/-- `STTProcessor.stop` (src/modules/stt_module.py lines 256-266): no-op if
not running, else clear the flag and join the worker. -/
def sttProcessorStop (st : PipelineState) : PipelineState :=
  if st.stt_running then { st with stt_running := false } else st

/-- `LLMProcessor.start` (src/modules/llm_module.py lines 264-273). -/
def llmProcessorStart (st : PipelineState) : PipelineState :=
  if st.llm_running then st else { st with llm_running := true }

/-- `LLMProcessor.stop` (src/modules/llm_module.py lines 275-285). -/
def llmProcessorStop (st : PipelineState) : PipelineState :=
  if st.llm_running then { st with llm_running := false } else st

/-- `AudioCapture.start` (src/modules/audio_capture.py lines 178-227):
returns `False` unchanged when already running; `deviceOk` abstracts whether
`set_device` and `self.audio.open` succeed for the requested device — on
failure the method returns `False` with `is_running` left/reset `False`, on
success it sets the flag, spawns the capture thread and returns `True`. -/
def audioCaptureStart (deviceOk : Bool) (st : PipelineState) :
    Bool × PipelineState :=
  if st.audio_running then (false, st)
  else if deviceOk then (true, { st with audio_running := true })
  else (false, st)

/-- `AudioCapture.stop` (src/modules/audio_capture.py lines 229-246). -/
def audioCaptureStop (st : PipelineState) : PipelineState :=
  if st.audio_running then { st with audio_running := false } else st

/-- `TranslationPipeline.start` (src/modules/pipeline.py lines 64-105):
return `False` unchanged when already running; otherwise start the STT and
LLM processors, then the audio capture; if the capture fails to start, stop
the two processors (in that order) and return `False`; on success set
`is_running` and spawn the three forwarding loops. -/
def TranslationPipeline.start (deviceOk : Bool) (st : PipelineState) :
    Bool × PipelineState :=
  if st.is_running then (false, st)
  else
    let st1 := llmProcessorStart (sttProcessorStart st)
    match audioCaptureStart deviceOk st1 with
    | (false, st2) => (false, llmProcessorStop (sttProcessorStop st2))
    | (true, st2) => (true, { st2 with is_running := true })

/-- `TranslationPipeline.stop` (src/modules/pipeline.py lines 107-121):
return unchanged when not running; otherwise clear `is_running`, then stop
the audio capture, the STT processor and the LLM processor. -/
def TranslationPipeline.stop (st : PipelineState) : PipelineState :=
  if st.is_running then
    llmProcessorStop (sttProcessorStop
      (audioCaptureStop { st with is_running := false }))
  else st

/-! ### AudioSource (src/modules/audio_capture.py) -/

/-- `AudioCapture.__init__` (src/modules/audio_capture.py lines 19-29):
`self.chunk_size = int(sample_rate * chunk_duration)` (both factors are
non-negative, so Python `int()` truncation is the floor). -/
def AudioCapture.chunk_size (sample_rate : Nat) (chunk_duration : ℚ) : Nat :=
  ((sample_rate : ℚ) * chunk_duration).floor.toNat

/-- `np.max(np.abs(xs))` with `0` for the empty array (the source only
applies it to non-empty reads). -/
def maxAbs (xs : List ℚ) : ℚ := xs.foldr (fun x m => max |x| m) 0

/-- `AudioCapture._process_audio_data` (src/modules/audio_capture.py lines
76-111) in the mono, no-resampling configuration (`resample_filter is None`):
flattening is the identity, and the only effect is the volume normalization
`if max_val > 0: processed_data = processed_data / max_val * 0.8`. -/
def AudioCapture.process_audio_data (raw : List ℚ) : List ℚ :=
  let max_val := maxAbs raw
  if 0 < max_val then raw.map (fun x => x / max_val * (4 / 5)) else raw

/-- The buffering step of one `_capture_loop` iteration
(src/modules/audio_capture.py lines 270-287): append the processed read to
the accumulation buffer; if the buffer has reached `chunk_size`, slice off
exactly one chunk (`buffer[:chunk_size]`) and keep the remainder
(`buffer[chunk_size:]`).  Returns the new buffer and the emitted chunk, if
any. -/
def AudioCapture.captureStep (cs : Nat) (buffer processed : List ℚ) :
    List ℚ × Option (List ℚ) :=
  let buf := buffer ++ processed
  if cs ≤ buf.length then (buf.drop cs, some (buf.take cs)) else (buf, none)

/-- Iterate `captureStep` over a sequence of processed reads, collecting the
emitted chunks in order. -/
def AudioCapture.captureRun (cs : Nat) (buffer : List ℚ) :
    List (List ℚ) → List ℚ × List (List ℚ)
  | [] => (buffer, [])
  | r :: rs =>
    let s := AudioCapture.captureStep cs buffer r
    let rest := AudioCapture.captureRun cs s.1 rs
    (rest.1, s.2.toList ++ rest.2)

/-! ### The transcription→translation forwarding loop
(src/modules/pipeline.py lines 142-175) -/

/-- Observable events of one `_stt_to_llm_loop` iteration: an
`on_partial_text(word)` callback, or the `llm_processor.put_text(text)`
submission. -/
inductive FwdEvent where
  | shown (w : List Char)
  | queued (t : List Char)
deriving DecidableEq

/-- The word loop of `_stt_to_llm_loop` (src/modules/pipeline.py lines
159-163): `for word in words: if word and word not in partial_text:
on_partial_text(word); partial_text += word`.  Returns the words for which
the callback fired, in order; `acc` is the accumulated partial text. -/
def TranslationPipeline.firedWords (acc : List Char) :
    List (List Char) → List (List Char)
  | [] => []
  | w :: ws =>
    if w ≠ [] ∧ ¬ (w <:+: acc) then
      w :: TranslationPipeline.firedWords (acc ++ w) ws
    else TranslationPipeline.firedWords acc ws

/-- One `_stt_to_llm_loop` iteration on a dequeued transcript result with the
`on_partial_text` callback attached (src/modules/pipeline.py lines 153-169):
nothing happens on empty text; otherwise the word loop fires the callback
per retained word, the text is submitted via `put_text`, and the partial
text is reset.  Each nonempty-text iteration starts from an empty partial
text (it is `""` initially and reset after every submission). -/
def TranslationPipeline.processResult (text : List Char)
    (words : List (List Char)) : List FwdEvent :=
  if text = [] then []
  else (TranslationPipeline.firedWords [] words).map FwdEvent.shown
        ++ [FwdEvent.queued text]

/-! ### C1 -/

/-- C1 is false on the code: a `put_audio`/`put_text` submit at full capacity
keeps the previous contents and drops the new item — the contents do not
become "previous minus the oldest plus the new element". -/
theorem c1_counterexample :
    (STTProcessor.put_audio 5 [0, 1, 2, 3, 4] 5).2 ≠ [1, 2, 3, 4, 5] ∧
    (LLMProcessor.put_text 5 [['a'], ['b'], ['c'], ['d'], ['e']] ['f']).2 ≠
      [['b'], ['c'], ['d'], ['e'], ['f']] := by
  decide

/-- C1 (amended): a submit at full capacity via `STTProcessor.put_audio` or
`LLMProcessor.put_text` never blocks or raises, returns `false`, and leaves
the queue contents unchanged — the NEW item is dropped, not the oldest. -/
theorem c1_submit_drops_new {α β : Type} (cap : Nat) (q : List α) (x : α)
    (tq : List β) (t : β) (hq : cap ≤ q.length) (ht : cap ≤ tq.length) :
    STTProcessor.put_audio cap q x = (false, q) ∧
    LLMProcessor.put_text cap tq t = (false, tq) := by
  constructor <;>
    simp [STTProcessor.put_audio, LLMProcessor.put_text,
      Nat.not_lt.mpr hq, Nat.not_lt.mpr ht]

/-- Witness for `c1_submit_drops_new` at capacity 2 with full queues. -/
theorem c1_submit_drops_new_witness :
    STTProcessor.put_audio 2 [0, 1] 2 = (false, [0, 1]) ∧
    LLMProcessor.put_text 2 [['a'], ['b']] ['c'] = (false, [['a'], ['b']]) :=
  c1_submit_drops_new 2 [0, 1] 2 [['a'], ['b']] ['c'] (by decide) (by decide)

/-! ### C2 -/

/-- C2 is false on the code: the worker loop `STTProcessor._process_loop`
applies no energy gate — on the silent chunk `[0, 0]` (RMS `0`, below the
`0.01` threshold) it still invokes the recognizer (invocation count `1`),
and with a recognizer returning non-empty text it emits a result. -/
theorem c2_counterexample :
    energyBelowGate [0, 0] = true ∧
    (STTProcessor.processChunk (fun _ => (['x'], [['x']])) [0, 0] []).1 ≠ 0 ∧
    (STTProcessor.processChunk (fun _ => (['x'], [['x']])) [0, 0] []).2 ≠ [] := by
  refine ⟨by simp [energyBelowGate, sumSq], by decide, by decide⟩

/-- C2 (amended): the RMS energy gate lives in
`STTModule.process_audio_chunk` (the callback path, unused by the pipeline's
processor loop), where a below-threshold chunk skips recognition and
produces no events; `STTProcessor._process_loop`, which consumes submitted
chunks, invokes the recognizer exactly once per chunk regardless of energy. -/
theorem c2_energy_gate_location
    (ts : List ℚ → List Char × List (List Char)) (chunk : List ℚ)
    (rq : List SttResult) (h : energyBelowGate chunk = true) :
    STTModule.process_audio_chunk ts chunk = (0, []) ∧
    (STTProcessor.processChunk ts chunk rq).1 = 1 := by
  refine ⟨by simp [STTModule.process_audio_chunk, h], ?_⟩
  simp only [STTProcessor.processChunk]
  split <;> rfl

/-- Witness for `c2_energy_gate_location` on the silent one-sample chunk. -/
theorem c2_energy_gate_location_witness :
    STTModule.process_audio_chunk (fun _ => (['x'], [['x']])) [0] = (0, []) ∧
    (STTProcessor.processChunk (fun _ => (['x'], [['x']])) [0] []).1 = 1 :=
  c2_energy_gate_location (fun _ => (['x'], [['x']])) [0] []
    (by simp [energyBelowGate, sumSq])

/-! ### C4 -/

/-- C4: starting from an idle pipeline, if the audio capture fails to open,
`TranslationPipeline.start` stops the already-started STT and LLM workers,
returns `false`, and the state is exactly the idle state it started from. -/
theorem c4_start_rollback (st : PipelineState)
    (h1 : st.is_running = false) (h2 : st.stt_running = false)
    (h3 : st.llm_running = false) (h4 : st.audio_running = false) :
    TranslationPipeline.start false st = (false, st) := by
  obtain ⟨a, b, c, d⟩ := st
  simp only at h1 h2 h3 h4
  subst h1 h2 h3 h4
  decide

/-- Witness for `c4_start_rollback` at the fresh idle state. -/
theorem c4_start_rollback_witness :
    TranslationPipeline.start false ⟨false, false, false, false⟩ =
      (false, ⟨false, false, false, false⟩) :=
  c4_start_rollback ⟨false, false, false, false⟩ rfl rfl rfl rfl

/-! ### C6 -/

/-- C6: `start` on a running pipeline returns `false` and changes nothing;
`stop` on an idle pipeline is a no-op. -/
theorem c6_start_stop_noop (st st' : PipelineState) (deviceOk : Bool)
    (hrun : st.is_running = true) (hidle : st'.is_running = false) :
    TranslationPipeline.start deviceOk st = (false, st) ∧
    TranslationPipeline.stop st' = st' := by
  constructor
  · simp [TranslationPipeline.start, hrun]
  · simp [TranslationPipeline.stop, hidle]

/-- Witness for `c6_start_stop_noop` at a running and an idle state. -/
theorem c6_start_stop_noop_witness :
    TranslationPipeline.start true ⟨true, true, true, true⟩ =
      (false, ⟨true, true, true, true⟩) ∧
    TranslationPipeline.stop ⟨false, false, false, false⟩ =
      ⟨false, false, false, false⟩ :=
  c6_start_stop_noop ⟨true, true, true, true⟩ ⟨false, false, false, false⟩
    true rfl rfl

/-! ### C9 -/

/-- `runOps` distributes over a leading operation. -/
theorem runOps_cons {α : Type} (cap : Nat) (q : List α) (op : ChanOp α)
    (ops : List (ChanOp α)) :
    runOps cap q (op :: ops) = runOps cap (ChanOp.apply cap q op) ops := rfl

/-- C9: for a channel of capacity `C ≥ 1`, after any sequence of sends
(either overflow policy) and receives, the occupancy stays within `[0, C]`
(the lower bound holds by the type of `List.length`). -/
theorem c9_occupancy_bounded {α : Type} (cap : Nat) (q : List α)
    (ops : List (ChanOp α)) (hcap : 1 ≤ cap) (hq : q.length ≤ cap) :
    (runOps cap q ops).length ≤ cap := by
  induction ops generalizing q with
  | nil => exact hq
  | cons op ops ih =>
    rw [runOps_cons]
    apply ih
    cases op with
    | sendOldest x =>
      simp only [ChanOp.apply, putDropOldest]
      by_cases h : q.length < cap
      · rw [if_pos h]
        simp only [List.length_append, List.length_cons, List.length_nil]
        omega
      · rw [if_neg h]
        simp only [List.length_append, List.length_tail, List.length_cons,
          List.length_nil]
        omega
    | sendNew x =>
      simp only [ChanOp.apply]
      by_cases h : q.length < cap
      · rw [if_pos h]
        simp only [List.length_append, List.length_cons, List.length_nil]
        omega
      · rw [if_neg h]
        exact hq
    | recv =>
      simp only [ChanOp.apply, List.length_tail]
      omega

/-- Witness for `c9_occupancy_bounded`: three overflowing sends and one
receive on a capacity-2 channel. -/
theorem c9_occupancy_bounded_witness :
    (runOps 2 ([] : List Nat)
      [ChanOp.sendOldest 1, ChanOp.sendOldest 2, ChanOp.sendOldest 3,
       ChanOp.sendNew 4, ChanOp.recv]).length ≤ 2 :=
  c9_occupancy_bounded 2 [] _ (by decide) (by decide)

/-! ### C10 -/

/-- C10: `add_sentence` with a blank (empty or whitespace-only) original is a
no-op — the window, counter, summary and invocation counters are unchanged,
so the call does not count toward the summary refresh interval. -/
theorem c10_blank_sentence_noop
    (gen : Option (List (List Char × List Char) → List Char))
    (st : CMState) (original translation : List Char)
    (h : pyStrip original = []) :
    ContextManager.add_sentence gen st original translation = st := by
  simp [ContextManager.add_sentence, h]

/-- Witness for `c10_blank_sentence_noop` on a whitespace-only original. -/
theorem c10_blank_sentence_noop_witness :
    ContextManager.add_sentence none (ContextManager.initState 5 3 200)
      [' ', '\t'] ['x'] = ContextManager.initState 5 3 200 :=
  c10_blank_sentence_noop none (ContextManager.initState 5 3 200)
    [' ', '\t'] ['x'] (by decide)

/-! ### C5 -/

/-- Every chunk emitted by the capture-loop buffering has exactly `cs`
samples, and the emitted chunks followed by the final buffer are exactly the
initial buffer followed by all processed reads (no sample of a partial chunk
is discarded, and order is preserved). -/
theorem captureRun_spec (cs : Nat) (buffer : List ℚ)
    (reads : List (List ℚ)) :
    ((AudioCapture.captureRun cs buffer reads).2).map List.length
      = List.replicate (AudioCapture.captureRun cs buffer reads).2.length cs ∧
    (AudioCapture.captureRun cs buffer reads).2.flatten
      ++ (AudioCapture.captureRun cs buffer reads).1
      = buffer ++ reads.flatten := by
  induction reads generalizing buffer with
  | nil => simp [AudioCapture.captureRun]
  | cons r rs ih =>
    by_cases h : cs ≤ (buffer ++ r).length
    · obtain ⟨ih1, ih2⟩ := ih ((buffer ++ r).drop cs)
      simp only [AudioCapture.captureRun, AudioCapture.captureStep,
        if_pos h, Option.toList, List.map_cons, List.length_cons,
        List.replicate_succ, List.flatten_cons, List.singleton_append]
      refine ⟨?_, ?_⟩
      · rw [ih1, List.length_take, Nat.min_eq_left h]
      · rw [List.append_assoc, ih2, ← List.append_assoc,
          List.take_append_drop, List.append_assoc]
    · have := ih (buffer ++ r)
      simp only [AudioCapture.captureRun, AudioCapture.captureStep,
        if_neg h, Option.toList, List.nil_append, List.flatten_cons] at *
      rw [this.1, this.2]
      simp [List.append_assoc]

/-- C5: with `chunk_size = int(sample_rate * chunk_duration)` as computed by
`AudioCapture.__init__`, every chunk emitted by the capture loop has exactly
`chunk_size` samples, and the accumulation buffer keeps every partial-chunk
remainder between reads. -/
theorem c5_chunk_length_and_retention (sample_rate : Nat)
    (chunk_duration : ℚ) (buffer : List ℚ) (reads : List (List ℚ)) :
    ((AudioCapture.captureRun
        (AudioCapture.chunk_size sample_rate chunk_duration) buffer reads).2).map
        List.length
      = List.replicate
          (AudioCapture.captureRun
            (AudioCapture.chunk_size sample_rate chunk_duration) buffer
            reads).2.length
          (AudioCapture.chunk_size sample_rate chunk_duration) ∧
    (AudioCapture.captureRun
        (AudioCapture.chunk_size sample_rate chunk_duration) buffer
        reads).2.flatten
      ++ (AudioCapture.captureRun
            (AudioCapture.chunk_size sample_rate chunk_duration) buffer
            reads).1
      = buffer ++ reads.flatten :=
  captureRun_spec (AudioCapture.chunk_size sample_rate chunk_duration)
    buffer reads

/-! ### C7 -/

/-- The words whose callback fires form a subsequence of the word list, and
each of them is non-empty. -/
theorem firedWords_sublist (ws : List (List Char)) (acc : List Char) :
    (TranslationPipeline.firedWords acc ws).Sublist ws ∧
    ∀ w ∈ TranslationPipeline.firedWords acc ws, w ≠ [] := by
  induction ws generalizing acc with
  | nil => simp [TranslationPipeline.firedWords]
  | cons w ws ih =>
    simp only [TranslationPipeline.firedWords]
    by_cases h : w ≠ [] ∧ ¬ (w <:+: acc)
    · rw [if_pos h]
      obtain ⟨ih1, ih2⟩ := ih (acc ++ w)
      refine ⟨List.Sublist.cons₂ w ih1, ?_⟩
      intro v hv
      rcases List.mem_cons.mp hv with rfl | hv
      · exact h.1
      · exact ih2 v hv
    · rw [if_neg h]
      obtain ⟨ih1, ih2⟩ := ih acc
      exact ⟨List.Sublist.cons w ih1, ih2⟩

/-- C7 is false on the code: for the transcript result with text `"aa"` and
word list `["a", "a"]`, the `on_partial_text` callback fires only once (the
second word is skipped because it is already contained in the accumulated
partial text), not once per word. -/
theorem c7_counterexample :
    TranslationPipeline.processResult ['a', 'a'] [['a'], ['a']]
      = [FwdEvent.shown ['a'], FwdEvent.queued ['a', 'a']] ∧
    TranslationPipeline.firedWords [] [['a'], ['a']] ≠ [['a'], ['a']] := by
  decide

/-- C7 (amended): for every forwarded transcript result with non-empty text,
`on_partial_text` fires exactly for the words that are non-empty and not yet
a substring of the partial text accumulated for this result — an
order-preserving subsequence of the word list — and every such callback
occurs before the text is submitted for translation. -/
theorem c7_shown_words (text : List Char) (words : List (List Char))
    (h : text ≠ []) :
    TranslationPipeline.processResult text words
      = (TranslationPipeline.firedWords [] words).map FwdEvent.shown
          ++ [FwdEvent.queued text] ∧
    (TranslationPipeline.firedWords [] words).Sublist words ∧
    ∀ w ∈ TranslationPipeline.firedWords [] words, w ≠ [] := by
  refine ⟨by simp [TranslationPipeline.processResult, h], ?_, ?_⟩
  · exact (firedWords_sublist words []).1
  · exact (firedWords_sublist words []).2

/-- Witness for `c7_shown_words` on the two-word result `"hi"`. -/
theorem c7_shown_words_witness :
    TranslationPipeline.processResult ['h', 'i'] [['h'], ['i']]
      = (TranslationPipeline.firedWords [] [['h'], ['i']]).map FwdEvent.shown
          ++ [FwdEvent.queued ['h', 'i']] ∧
    (TranslationPipeline.firedWords [] [['h'], ['i']]).Sublist
      [['h'], ['i']] ∧
    ∀ w ∈ TranslationPipeline.firedWords [] [['h'], ['i']], w ≠ [] :=
  c7_shown_words ['h', 'i'] [['h'], ['i']] (by decide)

/-! ### C8 -/

/-- `maxAbs` is non-negative. -/
theorem maxAbs_nonneg (xs : List ℚ) : 0 ≤ maxAbs xs := by
  induction xs with
  | nil => simp [maxAbs]
  | cons x xs ih => simp only [maxAbs, List.foldr_cons] at *; positivity

/-- `maxAbs` of a list scaled by a non-negative constant. -/
theorem maxAbs_map_mul (xs : List ℚ) (c : ℚ) (hc : 0 ≤ c) :
    maxAbs (xs.map (fun x => x * c)) = maxAbs xs * c := by
  induction xs with
  | nil => simp [maxAbs]
  | cons x xs ih =>
    simp only [maxAbs, List.map_cons, List.foldr_cons] at *
    rw [ih, abs_mul, abs_of_nonneg hc, max_mul_of_nonneg _ _ hc]

/-- C8 is false on the code: normalization is applied per device read, not
per emitted chunk.  With `chunk_size = 1`, processing the read
`[1/10, 2/10]` yields the normalized samples `[2/5, 4/5]`, and the first
emitted chunk is `[2/5]` — its peak is neither `0.8` nor `0` (and the
sample was rescaled even though the chunk's own peak is not `0.8`). -/
theorem c8_counterexample :
    AudioCapture.process_audio_data [1/10, 2/10] = [2/5, 4/5] ∧
    (AudioCapture.captureStep 1 []
        (AudioCapture.process_audio_data [1/10, 2/10])).2 = some [2/5] ∧
    maxAbs [2/5] ≠ 4/5 ∧ maxAbs [2/5] ≠ 0 := by
  refine ⟨?_, ?_, by norm_num [maxAbs, abs_of_nonneg],
    by norm_num [maxAbs, abs_of_nonneg]⟩ <;>
    norm_num [AudioCapture.process_audio_data, AudioCapture.captureStep,
      maxAbs, max_def, abs_of_nonneg]

/-- C8 (amended): `_process_audio_data` normalizes each processed device
read: if the read's peak absolute amplitude is zero the samples are
unchanged, otherwise the output's peak absolute amplitude is exactly `0.8`.
An emitted chunk is sliced from the accumulation buffer across reads, so its
own peak can be below `0.8`. -/
theorem c8_per_read_normalization (raw : List ℚ) :
    (maxAbs raw = 0 → AudioCapture.process_audio_data raw = raw) ∧
    (0 < maxAbs raw →
      maxAbs (AudioCapture.process_audio_data raw) = 4 / 5) := by
  constructor
  · intro h
    simp [AudioCapture.process_audio_data, h]
  · intro h
    have hne : maxAbs raw ≠ 0 := ne_of_gt h
    simp only [AudioCapture.process_audio_data, if_pos h]
    have hmap : raw.map (fun x => x / maxAbs raw * (4 / 5))
        = raw.map (fun x => x * (4 / 5 / maxAbs raw)) := by
      apply List.map_congr_left
      intro a _
      rw [div_mul_eq_mul_div, mul_div_assoc]
    rw [hmap, maxAbs_map_mul raw _ (by positivity)]
    field_simp
    ring

/-- Witness for `c8_per_read_normalization` on a silent and a non-silent
read. -/
theorem c8_per_read_normalization_witness :
    AudioCapture.process_audio_data [0, 0] = [0, 0] ∧
    maxAbs (AudioCapture.process_audio_data [1/2, 1/4]) = 4 / 5 :=
  ⟨(c8_per_read_normalization [0, 0]).1 (by norm_num [maxAbs]),
   (c8_per_read_normalization [1/2, 1/4]).2
     (by norm_num [maxAbs, max_def, abs_of_nonneg])⟩

/-! ### C3 -/

/-- Length of a bounded-deque append. -/
theorem dequeAppend_length {α : Type} (m : Nat) (q : List α) (x : α) :
    (dequeAppend m q x).length = min (q.length + 1) m := by
  simp [dequeAppend]
  omega

/-- Field effect of one `_update_summary` invocation: it leaves the window,
counter and configuration unchanged, increments the invocation counter, and
invokes the generator exactly when one is attached and the window holds at
least two entries. -/
theorem update_summary_fields
    (gen : Option (List (List Char × List Char) → List Char))
    (st : CMState) :
    (ContextManager.update_summary gen st).update_interval
        = st.update_interval ∧
    (ContextManager.update_summary gen st).window_size = st.window_size ∧
    (ContextManager.update_summary gen st).sentence_count
        = st.sentence_count ∧
    (ContextManager.update_summary gen st).history = st.history ∧
    (ContextManager.update_summary gen st).update_summary_calls
        = st.update_summary_calls + 1 ∧
    (ContextManager.update_summary gen st).gen_calls
        = st.gen_calls +
          (if gen.isSome = true ∧ 2 ≤ st.history.length then 1 else 0) := by
  cases gen with
  | none =>
    refine ⟨rfl, rfl, rfl, rfl, rfl, ?_⟩
    simp [ContextManager.update_summary]
  | some g =>
    by_cases h2 : st.history.length < 2
    · simp only [ContextManager.update_summary, if_pos h2,
        Option.isSome_some, true_and]
      rw [if_neg (by omega)]
      simp
    · by_cases hs : g st.history ≠ []
      · simp only [ContextManager.update_summary, if_neg h2, if_pos hs,
          Option.isSome_some, true_and]
        rw [if_pos (by omega)]
      · simp only [ContextManager.update_summary, if_neg h2, if_neg hs,
          Option.isSome_some, true_and]
        rw [if_pos (by omega)]

/-- Field effect of one non-blank `add_sentence`: counter up by one, window
length capped at `window_size`, `_update_summary` invoked exactly when the
new counter is divisible by the interval, and the generator invoked exactly
when additionally one is attached and the post-append window holds at least
two entries. -/
theorem add_sentence_counts
    (gen : Option (List (List Char × List Char) → List Char))
    (st : CMState) (o t : List Char) (ho : ¬ pyStrip o = []) :
    (ContextManager.add_sentence gen st o t).update_interval
        = st.update_interval ∧
    (ContextManager.add_sentence gen st o t).window_size = st.window_size ∧
    (ContextManager.add_sentence gen st o t).sentence_count
        = st.sentence_count + 1 ∧
    (ContextManager.add_sentence gen st o t).history.length
        = min (st.history.length + 1) st.window_size ∧
    (ContextManager.add_sentence gen st o t).update_summary_calls
        = st.update_summary_calls +
          (if (st.sentence_count + 1) % st.update_interval = 0
           then 1 else 0) ∧
    (ContextManager.add_sentence gen st o t).gen_calls
        = st.gen_calls +
          (if (st.sentence_count + 1) % st.update_interval = 0 ∧
              gen.isSome = true ∧
              2 ≤ min (st.history.length + 1) st.window_size
           then 1 else 0) := by
  obtain ⟨u1, u2, u3, u4, u5, u6⟩ := update_summary_fields gen
    { st with
      history := dequeAppend st.window_size st.history
        (pyStrip o, pyStrip t),
      sentence_count := st.sentence_count + 1 }
  have hlen : (dequeAppend st.window_size st.history
      (pyStrip o, pyStrip t)).length
      = min (st.history.length + 1) st.window_size :=
    dequeAppend_length _ _ _
  simp only [ContextManager.add_sentence, if_neg ho]
  by_cases hfire : (st.sentence_count + 1) % st.update_interval = 0
  · rw [if_pos hfire]
    refine ⟨u1, u2, u3, ?_, ?_, ?_⟩
    · rw [u4]
      exact hlen
    · rw [u5, if_pos hfire]
    · rw [u6]
      simp only [hlen]
      by_cases hcg : gen.isSome = true ∧
          2 ≤ min (st.history.length + 1) st.window_size
      · rw [if_pos hcg, if_pos ⟨hfire, hcg⟩]
      · rw [if_neg hcg, if_neg (fun hc => hcg hc.2)]
  · rw [if_neg hfire]
    refine ⟨rfl, rfl, rfl, hlen, ?_, ?_⟩
    · rw [if_neg hfire]
      rfl
    · rw [if_neg (fun hc => hfire hc.1)]
      rfl

/-- Cumulative effect of folding non-blank `add_sentence` calls: the number
of `_update_summary` invocations advances by the number of multiples of the
interval passed by the counter, and so does the number of generator
invocations, provided the interval and window are at least 2, a generator is
attached, and the window length tracks `min(count, window_size)`. -/
theorem addAll_counts
    (gen : Option (List (List Char × List Char) → List Char))
    (xs : List (List Char × List Char)) (st : CMState)
    (hb : ∀ p ∈ xs, ¬ pyStrip p.1 = []) (hK : 1 ≤ st.update_interval)
    (hw : st.history.length ≤ st.window_size) :
    (ContextManager.addAll gen st xs).update_interval
        = st.update_interval ∧
    (ContextManager.addAll gen st xs).window_size = st.window_size ∧
    (ContextManager.addAll gen st xs).sentence_count
        = st.sentence_count + xs.length ∧
    (ContextManager.addAll gen st xs).history.length
        = min (st.history.length + xs.length) st.window_size ∧
    (ContextManager.addAll gen st xs).update_summary_calls
          + st.sentence_count / st.update_interval
        = st.update_summary_calls
          + (st.sentence_count + xs.length) / st.update_interval ∧
    (2 ≤ st.update_interval → 2 ≤ st.window_size → gen.isSome = true →
      st.history.length = min st.sentence_count st.window_size →
      (ContextManager.addAll gen st xs).gen_calls
            + st.sentence_count / st.update_interval
          = st.gen_calls
            + (st.sentence_count + xs.length) / st.update_interval) := by
  induction xs generalizing st with
  | nil =>
    refine ⟨rfl, rfl, by simp [ContextManager.addAll], ?_,
      by simp [ContextManager.addAll], ?_⟩
    · show st.history.length
        = min (st.history.length + List.length []) st.window_size
      simp only [List.length_nil]
      omega
    · intro _ _ _ _
      simp [ContextManager.addAll]
  | cons p xs ih =>
    obtain ⟨e1, e2, e3, e4, e5, e6⟩ :=
      add_sentence_counts gen st p.1 p.2 (hb p (List.mem_cons_self p xs))
    have hK1 :
        1 ≤ (ContextManager.add_sentence gen st p.1 p.2).update_interval := by
      rw [e1]; exact hK
    have hw1 : (ContextManager.add_sentence gen st p.1 p.2).history.length
        ≤ (ContextManager.add_sentence gen st p.1 p.2).window_size := by
      rw [e4, e2]; omega
    obtain ⟨i1, i2, i3, i4, i5, i6⟩ :=
      ih (ContextManager.add_sentence gen st p.1 p.2)
        (fun q hq => hb q (List.mem_cons_of_mem p hq)) hK1 hw1
    have hrun : ContextManager.addAll gen st (p :: xs)
        = ContextManager.addAll gen
            (ContextManager.add_sentence gen st p.1 p.2) xs := rfl
    have hdiv : (st.sentence_count + 1) / st.update_interval
        = st.sentence_count / st.update_interval
          + (if (st.sentence_count + 1) % st.update_interval = 0
             then 1 else 0) := by
      rw [Nat.succ_div]
      congr 1
      simp [Nat.dvd_iff_mod_eq_zero]
    have hshift : st.sentence_count + 1 + xs.length
        = st.sentence_count + (p :: xs).length := by
      simp only [List.length_cons]
      omega
    refine ⟨?_, ?_, ?_, ?_, ?_, ?_⟩
    · rw [hrun, i1, e1]
    · rw [hrun, i2, e2]
    · rw [hrun, i3, e3]
      simp only [List.length_cons]
      omega
    · rw [hrun, i4, e4, e2]
      simp only [List.length_cons]
      omega
    · have i5' := i5
      rw [e5, e3, e1, hshift, hdiv] at i5'
      rw [hrun]
      linarith [i5']
    · intro h2 hwin hg hinv
      have hinv1 : (ContextManager.add_sentence gen st p.1 p.2).history.length
          = min (ContextManager.add_sentence gen st p.1 p.2).sentence_count
              (ContextManager.add_sentence gen st p.1 p.2).window_size := by
        rw [e4, e3, e2, hinv]
        omega
      have hi6 := i6 (by rw [e1]; exact h2) (by rw [e2]; exact hwin) hg hinv1
      rw [e6, e3, e1] at hi6
      have hdg : (if (st.sentence_count + 1) % st.update_interval = 0 ∧
            gen.isSome = true ∧
            2 ≤ min (st.history.length + 1) st.window_size
          then 1 else 0)
          = (if (st.sentence_count + 1) % st.update_interval = 0
             then 1 else 0) := by
        by_cases hf : (st.sentence_count + 1) % st.update_interval = 0
        · have hdvd : st.update_interval ∣ st.sentence_count + 1 :=
            Nat.dvd_iff_mod_eq_zero.mpr hf
          have hKle := Nat.le_of_dvd (Nat.succ_pos _) hdvd
          rw [if_pos ⟨hf, hg, by omega⟩, if_pos hf]
        · rw [if_neg (fun hc => hf hc.1), if_neg hf]
      rw [hdg, hshift, hdiv] at hi6
      rw [hrun]
      linarith [hi6]

/-- C3 is false on the code for K = 1 (the claim allows every K ≥ 1): with a
generator attached, after appending N = 1 sentence with update interval
K = 1 the claim demands ⌊1/1⌋ = 1 regeneration, but `_update_summary`
returns before invoking the generator because the history holds fewer than
two entries — the generator is invoked zero times and the summary is
unchanged. -/
theorem c3_counterexample :
    (ContextManager.add_sentence (some fun _ => ['s'])
        (ContextManager.initState 5 1 200) ['a'] []).sentence_count = 1 ∧
    (ContextManager.add_sentence (some fun _ => ['s'])
        (ContextManager.initState 5 1 200) ['a'] []).gen_calls = 0 ∧
    (ContextManager.add_sentence (some fun _ => ['s'])
        (ContextManager.initState 5 1 200) ['a'] []).context_summary = [] ∧
    (1 : Nat) / 1 = 1 := by
  decide

/-- C3 (amended): after appending N non-blank sentences to a fresh
`ContextManager` with update interval K ≥ 1, `_update_summary` has been
invoked exactly ⌊N/K⌋ times (it fires exactly when
`sentence_count mod K == 0`); the summary is actually regenerated (the
generator invoked) at exactly those ⌊N/K⌋ fires provided additionally
K ≥ 2, the window size is ≥ 2, and a generator is attached — a fire with
fewer than two history entries or no generator regenerates nothing. -/
theorem c3_refresh_counts (w K L : Nat)
    (gen : Option (List (List Char × List Char) → List Char))
    (xs : List (List Char × List Char)) (hK : 1 ≤ K)
    (hb : ∀ p ∈ xs, ¬ pyStrip p.1 = []) :
    (ContextManager.addAll gen (ContextManager.initState w K L)
        xs).update_summary_calls = xs.length / K ∧
    (2 ≤ K → 2 ≤ w → gen.isSome = true →
      (ContextManager.addAll gen (ContextManager.initState w K L)
          xs).gen_calls = xs.length / K) := by
  obtain ⟨a1, a2, a3, a4, a5, a6⟩ :=
    addAll_counts gen xs (ContextManager.initState w K L) hb hK
      (by simp [ContextManager.initState])
  constructor
  · simpa [ContextManager.initState] using a5
  · intro h2 hwin hg
    have := a6 h2 hwin hg (by simp [ContextManager.initState])
    simpa [ContextManager.initState] using this

/-- Witness for `c3_refresh_counts`: four sentences, interval 3, window 5 —
one `_update_summary` invocation and one generator invocation. -/
theorem c3_refresh_counts_witness :
    (ContextManager.addAll (some fun _ => ['s'])
        (ContextManager.initState 5 3 200)
        [(['a'], []), (['b'], []), (['c'], []),
         (['d'], [])]).update_summary_calls
      = ([(['a'], []), (['b'], []), (['c'], []), (['d'], [])] :
          List (List Char × List Char)).length / 3 ∧
    (ContextManager.addAll (some fun _ => ['s'])
        (ContextManager.initState 5 3 200)
        [(['a'], []), (['b'], []), (['c'], []), (['d'], [])]).gen_calls
      = ([(['a'], []), (['b'], []), (['c'], []), (['d'], [])] :
          List (List Char × List Char)).length / 3 :=
  ⟨(c3_refresh_counts 5 3 200 (some fun _ => ['s'])
      [(['a'], []), (['b'], []), (['c'], []), (['d'], [])]
      (by omega) (by decide)).1,
   (c3_refresh_counts 5 3 200 (some fun _ => ['s'])
      [(['a'], []), (['b'], []), (['c'], []), (['d'], [])]
      (by omega) (by decide)).2 (by omega) (by omega) rfl⟩

end YLT
